import Mathlib

/-!
Verification development for the Genedle backend (Rust sources under
`src/backend/src/api/`).  The Rust code is shallowly embedded: pure logic
becomes Lean functions, network and RNG effects are parametrised (the
registry is a function from queries to outcomes, the pseudo-random
generator is a state-passing structure), and code paths that can panic
are modelled with `Option` (`none` = panic).
-/

/-! ## Data model (from `api/mod.rs` and `api/genedle.rs`) -/

deriving instance DecidableEq for Except

structure GeneNamesDoc where
  symbol : String
deriving DecidableEq

structure GeneNamesResponseHeader where
  status : Nat
deriving DecidableEq

structure GeneNamesResponseBody where
  num_found : Nat
  docs : List GeneNamesDoc
deriving DecidableEq

structure GeneNamesResponse where
  response_header : GeneNamesResponseHeader
  response : GeneNamesResponseBody
deriving DecidableEq

inductive GameMode where
  | Normal
  | Hard
deriving DecidableEq

structure Guess where
  word : List Char
  session : Nat
  mode : GameMode
deriving DecidableEq

inductive InvalidGuess where
  | InternalError (msg : String)
  | NotEnoughLetters
  | TooManyLetters
  | InvalidLetter
  | NotInCorpus
deriving DecidableEq

inductive LetterFeedback where
  | Correct
  | Present
  | Absent
deriving DecidableEq

structure ValidGuess where
  is_correct : Bool
  result : List LetterFeedback
deriving DecidableEq

inductive GuessResult where
  | Invalid (reason : InvalidGuess)
  | Valid (v : ValidGuess)
deriving DecidableEq

/-- Outcome of one HTTP round-trip against the genenames registry, as the
`genedle.rs` code observes it: a transport error from `send()`, a non-success
HTTP status, a JSON decode error, or a decoded `GeneNamesResponse`. -/
inductive FetchOutcome where
  | transportError (msg : String)
  | httpFailure
  | parseError (msg : String)
  | parsed (json : GeneNamesResponse)

/-! ## Guess scorer (from `guess` in `api/genedle.rs`, lines 225-254)

The Rust scorer keeps a `HashMap<char, usize>` of available letter counts
(modelled as `Char → Option Nat`; `none` = key absent) and a `Vec` of
feedback written in place by index (modelled by structural recursion over
the unprocessed suffix).  `Option` results model index / `unwrap` panics. -/

/-- Pointwise update of the count map, as a `HashMap` insert. -/
def updateMap (m : Char → Option Nat) (c : Char) (v : Option Nat) : Char → Option Nat :=
  fun x => if x = c then v else m x

/-- `let mut char_counts = HashMap::new(); for letter in &word { *entry(letter).or_default() += 1 }`. -/
def buildCounts (word : List Char) : Char → Option Nat :=
  word.foldl (fun m c => updateMap m c (some ((m c).getD 0 + 1))) (fun _ => none)

/-- Pass 1: `for (i, (guessed, actual)) in guess.word.iter().zip(&word).enumerate()`;
at each matching position mark `Correct` and decrement via
`char_counts.get_mut(guessed).unwrap() -= 1` (`none` = the `unwrap` panic,
unreachable because the matched letter occurs in the secret). -/
def pass1 : (Char → Option Nat) → List (Char × Char) → List LetterFeedback →
    Option (List LetterFeedback × (Char → Option Nat))
  | counts, [], result => some (result, counts)
  | counts, (g, a) :: rest, result =>
    match result with
    | [] => none
    | f :: fs =>
      if g = a then
        match counts g with
        | none => none
        | some k =>
          (pass1 (updateMap counts g (some (k - 1))) rest fs).map
            (fun p => (LetterFeedback.Correct :: p.1, p.2))
      else
        (pass1 counts rest fs).map (fun p => (f :: p.1, p.2))

/-- Pass 2: `for (i, guessed) in guess.word.iter().enumerate()`; positions still
`Absent` become `Present` (with a decrement) when the letter's available count
is positive.  `none` models the `result[i]` out-of-bounds panic. -/
def pass2 : (Char → Option Nat) → List Char → List LetterFeedback →
    Option (List LetterFeedback)
  | _, [], result => some result
  | counts, g :: rest, result =>
    match result with
    | [] => none
    | f :: fs =>
      if f = LetterFeedback.Absent then
        match counts g with
        | some k =>
          if 0 < k then
            (pass2 (updateMap counts g (some (k - 1))) rest fs).map
              (fun r => LetterFeedback.Present :: r)
          else
            (pass2 counts rest fs).map (fun r => f :: r)
        | none => (pass2 counts rest fs).map (fun r => f :: r)
      else
        (pass2 counts rest fs).map (fun r => f :: r)

/-- The scoring portion of `guess` (`api/genedle.rs` lines 225-254): build the
count table from the secret, run the two passes starting from an all-`Absent`
feedback vector of the secret's length, and compute `is_correct`. -/
def scoreGuess (guessWord word : List Char) : Option (Bool × List LetterFeedback) :=
  let char_counts := buildCounts word
  let result := List.replicate word.length LetterFeedback.Absent
  match pass1 char_counts (guessWord.zip word) result with
  | none => none
  | some (r1, counts1) =>
    match pass2 counts1 guessWord r1 with
    | none => none
    | some r2 => some (r2.all (fun f => decide (f = LetterFeedback.Correct)), r2)

/-! ## Scorer, as the specification words it (spec section 4.3)

A second rendering, written from the spec's sentences: a per-letter
available-count table from the secret's letter multiset, pass 1 marking
`Correct` at matching positions with a decrement, pass 2 marking `Present`
(with a decrement) while the count is positive and `Absent` otherwise. -/

/-- Spec pass 1: positions where guess and secret agree are `Correct`. -/
def markCorrect (guessWord secret : List Char) : List LetterFeedback :=
  List.zipWith (fun g s => if g = s then LetterFeedback.Correct else LetterFeedback.Absent)
    guessWord secret

/-- Available count of letter `c` after spec pass 1: the multiset count in the
secret minus one per matching position holding `c`. -/
def availableAfterPass1 (guessWord secret : List Char) (c : Char) : Nat :=
  secret.count c -
    ((guessWord.zip secret).filter (fun p => decide (p.1 = p.2) && decide (p.1 = c))).length

/-- Decrement one letter's available count. -/
def decrCount (counts : Char → Nat) (c : Char) : Char → Nat :=
  fun x => if x = c then counts x - 1 else counts x

/-- Spec pass 2 over the guessed letters paired with the pass-1 feedback. -/
def pass2Spec : (Char → Nat) → List (Char × LetterFeedback) → List LetterFeedback
  | _, [] => []
  | counts, (g, f) :: rest =>
    if f = LetterFeedback.Correct then
      LetterFeedback.Correct :: pass2Spec counts rest
    else if 0 < counts g then
      LetterFeedback.Present :: pass2Spec (decrCount counts g) rest
    else
      LetterFeedback.Absent :: pass2Spec counts rest

/-- The scorer as the spec describes it, including
`is_correct = true iff every position is Correct`. -/
def scoreSpec (guessWord secret : List Char) : Bool × List LetterFeedback :=
  let fb := pass2Spec (availableAfterPass1 guessWord secret)
    (guessWord.zip (markCorrect guessWord secret))
  (decide (∀ f ∈ fb, f = LetterFeedback.Correct), fb)

example : scoreGuess ['2', 'I', 'B', 'M'] ['M', 'I', 'B', '2'] =
    some (false, [LetterFeedback.Present, LetterFeedback.Correct,
      LetterFeedback.Correct, LetterFeedback.Present]) := by decide

example : scoreSpec ['2', '2', '2', '2'] ['M', 'I', 'B', '2'] =
    (false, [LetterFeedback.Absent, LetterFeedback.Absent,
      LetterFeedback.Absent, LetterFeedback.Correct]) := by decide

example : scoreGuess ['M', '2', 'B', '2'] ['M', 'I', 'B', '2'] =
    some ((scoreSpec ['M', '2', 'B', '2'] ['M', 'I', 'B', '2']).1,
      (scoreSpec ['M', '2', 'B', '2'] ['M', 'I', 'B', '2']).2) := by decide

/-! ## Daily word selector (from `get_word` in `api/genedle.rs`, lines 160-199)

`StdRng` is a deterministic generator seeded from a `u64`, an external crate;
it is parametrised as `RngOps`: a seeding function and an inclusive-range
draw over an abstract state type.  `rand`'s `random_range` panics on an
empty range, captured by `randRangeChecked` returning `none`. -/

structure RngOps (σ : Type) where
  randomRange : Nat → Nat → σ → Nat × σ
  seedFrom : Nat → σ

/-- `rng.random_range(lo..=hi)`: panics (`none`) when the inclusive range is
empty, i.e. when `hi < lo`. -/
def randRangeChecked {σ : Type} (R : RngOps σ) (lo hi : Nat) (s : σ) : Option (Nat × σ) :=
  if lo ≤ hi then some (R.randomRange lo hi s) else none

/-- `get_word(key)`: seed `StdRng` from the key, draw a letter in `b'A'..=b'Z'`,
query the registry for symbols with that prefix, then draw
`random_range(1..=num_found) - 1` from the same stream and take that doc.
`none` models a panic inside `random_range`. -/
def get_word {σ : Type} (R : RngOps σ) (reg : Char → FetchOutcome) (key : Nat) :
    Option (Except String String) :=
  match randRangeChecked R 65 90 (R.seedFrom key) with
  | none => none
  | some p =>
    match reg (Char.ofNat p.1) with
    | .transportError msg => some (.error msg)
    | .httpFailure => some (.error "Unable to query genenames.org")
    | .parseError msg => some (.error msg)
    | .parsed json =>
      if json.response_header.status = 0 then
        match randRangeChecked R 1 json.response.num_found p.2 with
        | none => none
        | some q =>
          match (json.response.docs[q.1 - 1]?).map GeneNamesDoc.symbol with
          | some symbol => some (.ok symbol)
          | none => some (.error "No gene symbol found")
      else some (.error "No gene symbol found")

/-! ## Secret length and guess validator (from `api/genedle.rs`, lines 79-158)

Both `num_letters` (the public endpoint) and the cached `_num_letters` map the
selector's result for the session to a character count, or to the sentinel
`-1` on failure.  `#[cached] get_word` computes once per key, so every use of
the selector for one session sees the same `Except String String` value `w`;
the embedding passes that single value explicitly. -/

/-- Endpoint `num_letters`: `get_word(key).map_or(-1, |word| word.chars().count())`. -/
def num_letters (w : Except String String) : Int :=
  match w with
  | .ok word => (word.length : Int)
  | .error _ => -1

/-- Cached `_num_letters`, same computation as the endpoint. -/
def numLettersCached (w : Except String String) : Int :=
  match w with
  | .ok word => (word.length : Int)
  | .error _ => -1

/-- `_valid_guess` (`api/genedle.rs` lines 104-158): sentinel check, length
check, `Normal` acceptance, then the hard-mode exact-match registry query.
`reg` maps the guess string to the outcome of the exact-match request. -/
def validGuessCached (w : Except String String) (reg : String → FetchOutcome)
    (gu : Guess) : Except String (Option InvalidGuess) :=
  let len := numLettersCached w
  if len = -1 then
    .ok (some (.InternalError "Unable to fetch gene symbol"))
  else
    let len := len.toNat
    if gu.word.length ≠ len then
      .ok (some (if gu.word.length < len then .NotEnoughLetters else .TooManyLetters))
    else if gu.mode = GameMode.Normal then
      .ok none
    else
      let gs := String.mk gu.word
      match reg gs with
      | .transportError msg => .error msg
      | .httpFailure => .error "Unable to query genenames.org"
      | .parseError msg => .error msg
      | .parsed json =>
        if json.response_header.status = 0 ∧ 1 ≤ json.response.num_found ∧
            ∃ d ∈ json.response.docs, d.symbol = gs then
          .ok none
        else
          .ok (some .NotInCorpus)

/-- The `guess` endpoint (`api/genedle.rs` lines 201-255): validate, re-resolve
the (cached) secret, then score.  `none` models a scoring panic, unreachable
after validation. -/
def guessEndpoint (w : Except String String) (reg : String → FetchOutcome)
    (gu : Guess) : Option GuessResult :=
  match validGuessCached w reg gu with
  | .error err => some (.Invalid (.InternalError err))
  | .ok (some reason) => some (.Invalid reason)
  | .ok none =>
    match w with
    | .error err => some (.Invalid (.InternalError err))
    | .ok word =>
      match scoreGuess gu.word word.data with
      | none => none
      | some (b, fb) => some (.Valid ⟨b, fb⟩)

example : validGuessCached (.ok "MIB2") (fun _ => .httpFailure)
    ⟨['M', 'I', 'B'], 0, GameMode.Normal⟩ = .ok (some .NotEnoughLetters) := by decide

example : guessEndpoint (.ok "MIB2") (fun _ => .httpFailure)
    ⟨['2', '2', '2', '2'], 0, GameMode.Normal⟩ =
    some (.Valid ⟨false, [LetterFeedback.Absent, LetterFeedback.Absent,
      LetterFeedback.Absent, LetterFeedback.Correct]⟩) := by decide

/-! ## Spelling-gene generator (from `api/spelling_gene.rs`)

`BTreeSet<String>` becomes `Finset String`; the `rand` shuffle is
parametrised as `SpellingRng` (theorems assume the shuffled list is a
permutation of its input, which `SliceRandom::shuffle` guarantees).  The
registry is a pair of query functions, `pre` for `letter*` and `suf` for
`*letter`; in this function any transport or JSON error surfaces as
`Fetch2.err` (there is no separate HTTP-status check here). -/

structure SpellingGeneMetadata where
  outer_letters : List String
  center_letter : String
deriving DecidableEq

structure SpellingGeneGame where
  metadata : SpellingGeneMetadata
  valid_symbols : Finset String
deriving DecidableEq

inductive Fetch2 where
  | err (msg : String)
  | parsed (json : GeneNamesResponse)

structure SpellingRng (σ : Type) where
  shuffle : List String → σ → List String × σ
  seedFrom : Nat → σ

def MAX_ITERS : Nat := 10000

def VALID_LETTERS : List String :=
  ["A", "B", "C", "D", "E", "F", "G", "H", "I", "J", "K", "L", "M", "N", "O", "P", "Q", "R",
   "S", "T", "U", "V", "W", "X", "Y", "Z", "-"]

/-- `get_options(letter)`: the `letter*` and `*letter` queries; either error
aborts with `Err`, a non-success registry status contributes no docs, and
the two doc lists are collected into one set of symbols. -/
def get_options (pre suf : String → Fetch2) (letter : String) :
    Except String (Finset String) :=
  match pre letter with
  | .err msg => .error msg
  | .parsed j1 =>
    match suf letter with
    | .err msg => .error msg
    | .parsed j2 =>
      let d1 := if j1.response_header.status = 0 then j1.response.docs else []
      let d2 := if j2.response_header.status = 0 then j2.response.docs else []
      .ok ((d1 ++ d2).map GeneNamesDoc.symbol).toFinset

/-- The `all_symbols` accumulation: for each sampled letter, on a successful
`get_options` extend with the symbols of length at least `min_length`. -/
def collectAllSymbols (pre suf : String → Fetch2) (letters : List String)
    (min_length : Nat) : Finset String :=
  letters.foldl
    (fun acc letter =>
      match get_options pre suf letter with
      | .ok symbols => acc ∪ symbols.filter (fun s => min_length ≤ s.data.length)
      | .error _ => acc)
    ∅

/-- One candidate letter set accepted by the retry loop: the truncated shuffle,
its last element popped as center, and the filter over `all_symbols`. -/
def gameIter {σ : Type} (S : SpellingRng σ) (all_symbols : Finset String)
    (min_words num_letters : Nat) :
    Nat → σ → Option (Except String SpellingGeneGame)
  | 0, _ => some (.error "Failed to generate a valid game")
  | fuel + 1, rng =>
    let p := S.shuffle VALID_LETTERS rng
    let letters := p.1.take num_letters
    let letters_set : Finset Char := (letters.map String.data).flatten.toFinset
    match letters.getLast? with
    | none => none
    | some center_letter =>
      match center_letter.data.head? with
      | none => none
      | some center_char =>
        let letters_set := insert center_char letters_set
        let filtered := all_symbols.filter
          (fun symbol => center_char ∈ symbol.data ∧ ∀ c ∈ symbol.data, c ∈ letters_set)
        if min_words ≤ filtered.card then
          some (.ok ⟨⟨letters.dropLast, center_letter⟩, filtered⟩)
        else
          gameIter S all_symbols min_words num_letters fuel p.2

/-- `_generate_game` (`api/spelling_gene.rs` lines 59-162): seed the rng,
sample `num_letters + 5` letters for the symbol pool, then run the bounded
retry loop (`MAX_ITERS`).  `none` models the `letters.pop().unwrap()` panic. -/
def generateGame {σ : Type} (S : SpellingRng σ) (pre suf : String → Fetch2)
    (min_length min_words num_letters seed : Nat) :
    Option (Except String SpellingGeneGame) :=
  let rng := S.seedFrom seed
  let p := S.shuffle VALID_LETTERS rng
  let fetch_letters := p.1.take (num_letters + 5)
  let all_symbols := collectAllSymbols pre suf fetch_letters min_length
  gameIter S all_symbols min_words num_letters MAX_ITERS p.2

/-- `check_guess` (`api/spelling_gene.rs` lines 25-32): resolve the puzzle for
the tuple and test membership; a generation `Err` yields `false`. -/
def check_guess {σ : Type} (S : SpellingRng σ) (pre suf : String → Fetch2)
    (seed min_length min_words num_letters : Nat) (guessWord : String) : Option Bool :=
  match generateGame S pre suf min_length min_words num_letters seed with
  | none => none
  | some (.ok game) => some (decide (guessWord ∈ game.valid_symbols))
  | some (.error _) => some false

/-- A trivial but permutation-correct rng: the shuffle returns its input. -/
def idRng : SpellingRng Unit :=
  ⟨fun l s => (l, s), fun _ => ()⟩

/-- A registry whose every request fails in transport. -/
def errReg : String → Fetch2 := fun _ => .err "transport"

example : check_guess idRng errReg errReg 0 0 0 1 "X" = some false := by decide

/-! ## Scorer equivalence lemmas -/

theorem zip_map_eq_zipWith (f : Char → Char → LetterFeedback) :
    ∀ (l1 l2 : List Char), (l1.zip l2).map (fun p => f p.1 p.2) = List.zipWith f l1 l2 := by
  intro l1
  induction l1 with
  | nil => intro l2; simp
  | cons a t ih =>
    intro l2
    cases l2 with
    | nil => simp
    | cons b t2 => simp [ih]

theorem foldl_buildCounts (c : Char) :
    ∀ (w : List Char) (m : Char → Option Nat),
      (w.foldl (fun m c => updateMap m c (some ((m c).getD 0 + 1))) m) c =
        if c ∈ w then some ((m c).getD 0 + w.count c) else m c := by
  intro w
  induction w with
  | nil => intro m; simp
  | cons a t ih =>
    intro m
    rw [List.foldl_cons, ih]
    by_cases hca : c = a
    · subst hca
      have hup : updateMap m c (some ((m c).getD 0 + 1)) c = some ((m c).getD 0 + 1) := by
        simp [updateMap]
      rw [if_pos (List.mem_cons_self c t)]
      by_cases hct : c ∈ t
      · rw [if_pos hct, hup]
        simp only [Option.getD_some]
        rw [List.count_cons_self]
        congr 1
        omega
      · rw [if_neg hct, hup]
        have ht0 : t.count c = 0 := List.count_eq_zero.mpr hct
        rw [List.count_cons_self, ht0]
    · have hup : updateMap m a (some ((m a).getD 0 + 1)) c = m c := by
        simp [updateMap, hca]
      have hcount : (a :: t).count c = t.count c := List.count_cons_of_ne hca t
      rw [hup, hcount]
      by_cases hct : c ∈ t
      · rw [if_pos hct, if_pos (List.mem_cons_of_mem a hct)]
      · rw [if_neg hct, if_neg (by simp [List.mem_cons, hca, hct])]

theorem buildCounts_eq (w : List Char) (c : Char) :
    buildCounts w c = if c ∈ w then some (w.count c) else none := by
  have h := foldl_buildCounts c w (fun _ => none)
  simpa [buildCounts] using h

/-- The per-letter decrements a list of position pairs causes in pass 1. -/
def matchedCount (ps : List (Char × Char)) (c : Char) : Nat :=
  (ps.filter (fun p => decide (p.1 = p.2) && decide (p.1 = c))).length

theorem pass1_eq :
    ∀ (ps : List (Char × Char)) (res : List LetterFeedback) (m : Char → Option Nat),
      ps.length ≤ res.length →
      (∀ f ∈ res, f = LetterFeedback.Absent) →
      (∀ p ∈ ps, p.1 = p.2 → (m p.1).isSome) →
      pass1 m ps res = some
        (ps.map (fun p => if p.1 = p.2 then LetterFeedback.Correct else LetterFeedback.Absent)
            ++ res.drop ps.length,
          fun c => (m c).map (fun k => k - matchedCount ps c)) := by
  intro ps
  induction ps with
  | nil =>
    intro res m _ _ _
    simp only [pass1, List.map_nil, List.nil_append, List.drop_zero]
    congr 1
    congr 1
    funext c
    cases m c <;> simp [matchedCount]
  | cons p rest ih =>
    intro res m hlen hres hm
    obtain ⟨g, a⟩ := p
    cases res with
    | nil => simp at hlen
    | cons f fs =>
      have hf : f = LetterFeedback.Absent := hres f (List.mem_cons_self f fs)
      have hfs : ∀ f ∈ fs, f = LetterFeedback.Absent :=
        fun x hx => hres x (List.mem_cons_of_mem f hx)
      have hlen' : rest.length ≤ fs.length := by
        simp at hlen
        omega
      by_cases hga : g = a
      · subst hga
        have hsome : (m g).isSome := hm (g, g) (List.mem_cons_self _ _) rfl
        obtain ⟨k, hk⟩ := Option.isSome_iff_exists.mp hsome
        have hm' : ∀ p ∈ rest, p.1 = p.2 →
            ((updateMap m g (some (k - 1))) p.1).isSome := by
          intro p hp hpe
          by_cases hpg : p.1 = g
          · simp [updateMap, hpg]
          · simp only [updateMap, if_neg hpg]
            exact hm p (List.mem_cons_of_mem _ hp) hpe
        have hstep : pass1 m ((g, g) :: rest) (f :: fs) =
            (pass1 (updateMap m g (some (k - 1))) rest fs).map
              (fun p => (LetterFeedback.Correct :: p.1, p.2)) := by
          simp [pass1, hk]
        rw [hstep, ih fs (updateMap m g (some (k - 1))) hlen' hfs hm']
        simp only [Option.map_some', Option.some_inj, Prod.mk.injEq, List.map_cons,
          if_pos rfl, List.drop_succ_cons, List.length_cons]
        refine ⟨by simp, ?_⟩
        funext c
        by_cases hcg : c = g
        · rw [hcg]
          have hup : updateMap m g (some (k - 1)) g = some (k - 1) := by
            simp [updateMap]
          have hmc : matchedCount ((g, g) :: rest) g = matchedCount rest g + 1 := by
            simp [matchedCount, List.filter_cons]
          rw [hup, hk, hmc, Option.map_some', Option.map_some', Option.some_inj]
          omega
        · have h1 : updateMap m g (some (k - 1)) c = m c := by
            simp [updateMap, hcg]
          have hgc : ¬(g = c) := fun h => hcg h.symm
          have h2 : matchedCount ((g, g) :: rest) c = matchedCount rest c := by
            simp [matchedCount, List.filter_cons, hgc]
          rw [h1, h2]
      · have hstep : pass1 m ((g, a) :: rest) (f :: fs) =
            (pass1 m rest fs).map (fun p => (f :: p.1, p.2)) := by
          simp [pass1, hga]
        have hm'' : ∀ p ∈ rest, p.1 = p.2 → (m p.1).isSome :=
          fun p hp hpe => hm p (List.mem_cons_of_mem _ hp) hpe
        rw [hstep, ih fs m hlen' hfs hm'']
        simp only [Option.map_some', Option.some_inj, Prod.mk.injEq, List.map_cons,
          if_neg hga, List.drop_succ_cons, List.length_cons, hf]
        refine ⟨by simp, ?_⟩
        funext c
        have h2 : matchedCount ((g, a) :: rest) c = matchedCount rest c := by
          have hcond : (decide (g = a) && decide (g = c)) = false := by
            simp [hga]
          simp [matchedCount, List.filter_cons, hcond]
        rw [h2]

theorem pass2_eq :
    ∀ (gs : List Char) (fbs : List LetterFeedback) (m : Char → Option Nat) (fn : Char → Nat),
      gs.length ≤ fbs.length →
      (∀ f ∈ fbs, f = LetterFeedback.Correct ∨ f = LetterFeedback.Absent) →
      (∀ c, fn c = (m c).getD 0) →
      pass2 m gs fbs = some (pass2Spec fn (gs.zip fbs) ++ fbs.drop gs.length) := by
  intro gs
  induction gs with
  | nil =>
    intro fbs m fn _ _ _
    simp [pass2, pass2Spec]
  | cons g rest ih =>
    intro fbs m fn hlen hfbs hrel
    cases fbs with
    | nil => simp at hlen
    | cons f fs =>
      have hlen' : rest.length ≤ fs.length := by
        simp at hlen
        omega
      have hfs : ∀ f ∈ fs, f = LetterFeedback.Correct ∨ f = LetterFeedback.Absent :=
        fun x hx => hfbs x (List.mem_cons_of_mem f hx)
      rcases hfbs f (List.mem_cons_self f fs) with hfC | hfA
      · subst hfC
        rw [show pass2 m (g :: rest) (LetterFeedback.Correct :: fs) =
            (pass2 m rest fs).map (fun r => LetterFeedback.Correct :: r) by
          simp [pass2]]
        rw [ih fs m fn hlen' hfs hrel]
        rw [show (g :: rest).zip (LetterFeedback.Correct :: fs) =
            (g, LetterFeedback.Correct) :: rest.zip fs from rfl]
        simp [pass2Spec]
      · subst hfA
        have hfng : fn g = (m g).getD 0 := hrel g
        rw [show (g :: rest).zip (LetterFeedback.Absent :: fs) =
            (g, LetterFeedback.Absent) :: rest.zip fs from rfl]
        rcases hmg : m g with _ | k
        · have hfn0 : fn g = 0 := by rw [hfng, hmg]; rfl
          rw [show pass2 m (g :: rest) (LetterFeedback.Absent :: fs) =
              (pass2 m rest fs).map (fun r => LetterFeedback.Absent :: r) by
            simp [pass2, hmg]]
          rw [ih fs m fn hlen' hfs hrel]
          simp [pass2Spec, hfn0]
        · by_cases hk : 0 < k
          · have hfnk : fn g = k := by rw [hfng, hmg]; rfl
            rw [show pass2 m (g :: rest) (LetterFeedback.Absent :: fs) =
                (pass2 (updateMap m g (some (k - 1))) rest fs).map
                  (fun r => LetterFeedback.Present :: r) by
              simp [pass2, hmg, hk]]
            have hrel' : ∀ c, decrCount fn g c =
                ((updateMap m g (some (k - 1))) c).getD 0 := by
              intro c
              by_cases hcg : c = g
              · subst hcg
                simp [decrCount, updateMap, hfnk]
              · simp [decrCount, updateMap, hcg, hrel c]
            rw [ih fs (updateMap m g (some (k - 1))) (decrCount fn g) hlen' hfs hrel']
            simp [pass2Spec, hfnk, hk]
          · have hk0 : k = 0 := by omega
            have hfn0 : fn g = 0 := by rw [hfng, hmg, hk0]; rfl
            rw [show pass2 m (g :: rest) (LetterFeedback.Absent :: fs) =
                (pass2 m rest fs).map (fun r => LetterFeedback.Absent :: r) by
              simp [pass2, hmg, hk]]
            rw [ih fs m fn hlen' hfs hrel]
            simp [pass2Spec, hfn0]

theorem mem_markCorrect :
    ∀ (g w : List Char) (f : LetterFeedback), f ∈ markCorrect g w →
      f = LetterFeedback.Correct ∨ f = LetterFeedback.Absent := by
  intro g
  induction g with
  | nil => intro w f h; simp [markCorrect] at h
  | cons a t ih =>
    intro w f h
    cases w with
    | nil => simp [markCorrect] at h
    | cons b t2 =>
      simp only [markCorrect, List.zipWith_cons_cons, List.mem_cons] at h
      rcases h with h | h
      · by_cases hab : a = b
        · left; simp [hab] at h; exact h
        · right; simp [hab] at h; exact h
      · exact ih t2 f h

/-! ## Validator helper lemmas -/

theorem validGuessCached_ok_short (secret : String) (reg : String → FetchOutcome)
    (gu : Guess) (h : gu.word.length < secret.length) :
    validGuessCached (.ok secret) reg gu = .ok (some .NotEnoughLetters) := by
  unfold validGuessCached
  rw [show numLettersCached (.ok secret) = (secret.length : Int) from rfl]
  rw [if_neg (by omega)]
  rw [if_pos (by omega)]
  rw [if_pos (by omega)]

theorem validGuessCached_ok_long (secret : String) (reg : String → FetchOutcome)
    (gu : Guess) (h : secret.length < gu.word.length) :
    validGuessCached (.ok secret) reg gu = .ok (some .TooManyLetters) := by
  unfold validGuessCached
  rw [show numLettersCached (.ok secret) = (secret.length : Int) from rfl]
  rw [if_neg (by omega)]
  rw [if_pos (by omega)]
  rw [if_neg (by omega)]

theorem validGuessCached_ok_normal (secret : String) (reg : String → FetchOutcome)
    (gu : Guess) (h : gu.word.length = secret.length) (hmode : gu.mode = GameMode.Normal) :
    validGuessCached (.ok secret) reg gu = .ok none := by
  unfold validGuessCached
  rw [show numLettersCached (.ok secret) = (secret.length : Int) from rfl]
  rw [if_neg (by omega)]
  rw [if_neg (by omega)]
  rw [if_pos hmode]

/-! ## Claim C1 -/

/-- **C1.** For every guess and secret of equal length, the scoring part of the
`guess` operation computes exactly the spec's two-pass duplicate-aware
algorithm (`scoreSpec`): a per-letter available-count table from the secret's
multiset, pass 1 marking `Correct` at matching positions with a decrement,
pass 2 marking `Present` (with a decrement) while the count is positive and
`Absent` otherwise; `is_correct` is `true` iff every position is `Correct`;
and the `guess` endpoint in `Normal` mode returns exactly this score. -/
theorem guess_scores_two_pass (g w : List Char) (hlen : g.length = w.length) :
    scoreGuess g w = some (scoreSpec g w) ∧
    (∀ b fb, scoreGuess g w = some (b, fb) →
      (b = true ↔ ∀ f ∈ fb, f = LetterFeedback.Correct)) ∧
    (∀ (sess : Nat) (reg : String → FetchOutcome),
      guessEndpoint (.ok (String.mk w)) reg ⟨g, sess, GameMode.Normal⟩ =
        some (.Valid ⟨(scoreSpec g w).1, (scoreSpec g w).2⟩)) := by
  have hzlen : (g.zip w).length = g.length := by
    simp [hlen]
  have hres : ∀ f ∈ List.replicate w.length LetterFeedback.Absent,
      f = LetterFeedback.Absent :=
    fun f hf => List.eq_of_mem_replicate hf
  have hm : ∀ p ∈ g.zip w, p.1 = p.2 → ((buildCounts w) p.1).isSome := by
    intro p hp hpe
    have hpw : p.2 ∈ w := (List.of_mem_zip hp).2
    rw [buildCounts_eq, if_pos (hpe ▸ hpw)]
    rfl
  have h1 := pass1_eq (g.zip w) (List.replicate w.length LetterFeedback.Absent)
    (buildCounts w) (by simp [hzlen, hlen]) hres hm
  have hdrop : (List.replicate w.length LetterFeedback.Absent).drop (g.zip w).length
      = [] := by
    apply List.drop_eq_nil_of_le
    simp only [List.length_replicate, hzlen]
    omega
  have hmark : (g.zip w).map
      (fun p => if p.1 = p.2 then LetterFeedback.Correct else LetterFeedback.Absent)
      = markCorrect g w :=
    zip_map_eq_zipWith
      (fun x y => if x = y then LetterFeedback.Correct else LetterFeedback.Absent) g w
  have h1' : pass1 (buildCounts w) (g.zip w)
      (List.replicate w.length LetterFeedback.Absent)
      = some (markCorrect g w,
          fun c => (buildCounts w c).map (fun k => k - matchedCount (g.zip w) c)) := by
    rw [h1, hdrop, hmark, List.append_nil]
  have hrel : ∀ c, availableAfterPass1 g w c =
      ((fun c => (buildCounts w c).map (fun k => k - matchedCount (g.zip w) c)) c).getD 0 := by
    intro c
    simp only [buildCounts_eq]
    by_cases hcw : c ∈ w
    · rw [if_pos hcw]
      simp [availableAfterPass1, matchedCount]
    · rw [if_neg hcw]
      have hc0 : w.count c = 0 := List.count_eq_zero.mpr hcw
      simp [availableAfterPass1, matchedCount, hc0]
  have hmlen : (markCorrect g w).length = g.length := by
    simp [markCorrect]
    omega
  have hdrop2 : (markCorrect g w).drop g.length = [] := by
    rw [← hmlen, List.drop_length]
  have h2 := pass2_eq g (markCorrect g w)
    (fun c => (buildCounts w c).map (fun k => k - matchedCount (g.zip w) c))
    (availableAfterPass1 g w) (le_of_eq hmlen.symm) (mem_markCorrect g w) hrel
  have h2' : pass2 (fun c => (buildCounts w c).map (fun k => k - matchedCount (g.zip w) c))
      g (markCorrect g w)
      = some (pass2Spec (availableAfterPass1 g w) (g.zip (markCorrect g w))) := by
    rw [h2, hdrop2, List.append_nil]
  have hscore : scoreGuess g w = some (scoreSpec g w) := by
    simp only [scoreGuess, h1', h2', scoreSpec]
    congr 2
    rw [Bool.eq_iff_iff]
    simp [List.all_eq_true]
  refine ⟨hscore, ?_, ?_⟩
  · intro b fb hbf
    rw [hscore, Option.some_inj] at hbf
    have h1b : (scoreSpec g w).1 = b := by rw [hbf]
    have h2b : (scoreSpec g w).2 = fb := by rw [hbf]
    rw [← h1b, ← h2b]
    simp [scoreSpec]
  · intro sess reg
    have hw : (String.mk w).data = w := rfl
    have hv : validGuessCached (.ok (String.mk w)) reg ⟨g, sess, GameMode.Normal⟩
        = .ok none :=
      validGuessCached_ok_normal (String.mk w) reg ⟨g, sess, GameMode.Normal⟩ hlen rfl
    unfold guessEndpoint
    rw [hv]
    simp only [hw, hscore]

/-- Witness for C1 at the spec's test vector `"2IBM"` against `"MIB2"`. -/
theorem guess_scores_two_pass_witness :
    scoreGuess ['2', 'I', 'B', 'M'] ['M', 'I', 'B', '2'] =
      some (scoreSpec ['2', 'I', 'B', 'M'] ['M', 'I', 'B', '2']) :=
  (guess_scores_two_pass ['2', 'I', 'B', 'M'] ['M', 'I', 'B', '2'] (by decide)).1

/-! ## Claims C3, C9 (validator and length sentinel) -/

/-- **C3.** After the secret is resolved, the validator short-circuits on
length: shorter yields `NotEnoughLetters`, longer yields `TooManyLetters`, and
an equal-length guess in `Normal` mode is accepted with no registry query (the
result is `.ok none` for every registry whatsoever). -/
theorem valid_guess_length_checks (secret : String) (reg : String → FetchOutcome)
    (gu : Guess) :
    (gu.word.length < secret.length →
      validGuessCached (.ok secret) reg gu = .ok (some .NotEnoughLetters)) ∧
    (secret.length < gu.word.length →
      validGuessCached (.ok secret) reg gu = .ok (some .TooManyLetters)) ∧
    (gu.word.length = secret.length → gu.mode = GameMode.Normal →
      validGuessCached (.ok secret) reg gu = .ok none) := by
  exact ⟨validGuessCached_ok_short secret reg gu,
    validGuessCached_ok_long secret reg gu,
    fun h hmode => validGuessCached_ok_normal secret reg gu h hmode⟩

/-- Witness for C3: `"MIB"` against secret `"MIB2"` is `NotEnoughLetters`. -/
theorem valid_guess_length_checks_witness :
    validGuessCached (.ok (String.mk ['M', 'I', 'B', '2'])) (fun _ => .httpFailure)
      ⟨['M', 'I', 'B'], 0, GameMode.Normal⟩ = .ok (some .NotEnoughLetters) :=
  (valid_guess_length_checks (String.mk ['M', 'I', 'B', '2']) (fun _ => .httpFailure)
    ⟨['M', 'I', 'B'], 0, GameMode.Normal⟩).1 (by decide)

/-- **C9.** The secret-length operations return the character count on success
and the sentinel `-1` (not an error) on failure; `-1` arises exactly from a
failed resolution; and the validator maps the sentinel to
`Invalid(InternalError)` for every guess, before any length comparison. -/
theorem num_letters_sentinel :
    (∀ word : String, num_letters (.ok word) = (word.length : Int) ∧
      numLettersCached (.ok word) = (word.length : Int)) ∧
    (∀ msg : String, num_letters (.error msg) = -1 ∧ numLettersCached (.error msg) = -1) ∧
    (∀ w : Except String String, numLettersCached w = -1 ↔ ∃ msg, w = .error msg) ∧
    (∀ (msg : String) (reg : String → FetchOutcome) (gu : Guess),
      validGuessCached (.error msg) reg gu =
        .ok (some (.InternalError "Unable to fetch gene symbol"))) := by
  refine ⟨fun word => ⟨rfl, rfl⟩, fun msg => ⟨rfl, rfl⟩, fun w => ?_, fun msg reg gu => ?_⟩
  · cases w with
    | ok word =>
      constructor
      · intro h
        simp only [numLettersCached] at h
        omega
      · rintro ⟨msg, hmsg⟩
        cases hmsg
    | error msg =>
      constructor
      · intro _
        exact ⟨msg, rfl⟩
      · intro _
        rfl
  · unfold validGuessCached
    rw [show numLettersCached (.error msg) = (-1 : Int) from rfl]
    rw [if_pos rfl]

/-- Witness for C9's sentinel-to-`InternalError` conversion. -/
theorem num_letters_sentinel_witness :
    validGuessCached (.error "transport") (fun _ => .httpFailure)
      ⟨['A'], 0, GameMode.Hard⟩ =
      .ok (some (.InternalError "Unable to fetch gene symbol")) :=
  num_letters_sentinel.2.2.2 "transport" (fun _ => .httpFailure) ⟨['A'], 0, GameMode.Hard⟩

/-! ## Claim C8 (selector behaviour on an empty prefix result)

A deterministic in-range rng and a registry whose prefix query succeeds with
`numFound = 0` and no docs: the code reaches `rng.random_range(1..=0)`, an
empty range, i.e. a panic (`none`) — not the `NoSymbolFound` error. -/

def constRng : RngOps Nat :=
  ⟨fun lo _ s => (lo, s + 1), fun k => k⟩

def zeroFoundReg : Char → FetchOutcome :=
  fun _ => .parsed ⟨⟨0⟩, ⟨0, []⟩⟩

/-- **C8.** At a prefix query that succeeds with `numFound = 0`, `get_word`
panics in the empty-range index draw (`none`) instead of failing with the
`NoSymbolFound` error (`some (.error "No gene symbol found")`). -/
theorem get_word_zero_found_panics :
    get_word constRng zeroFoundReg 1234567890 = none ∧
    get_word constRng zeroFoundReg 1234567890 ≠
      some (.error "No gene symbol found") := by
  constructor
  · decide
  · decide

/-! ## Claim C2 (deterministic daily-word selection) -/

/-- **C2.** `get_word` is a pure function of the seed (so repeated calls with
the same seed agree, matching the `#[cached]` memoization): it seeds the
generator from the key, draws one letter in `A..Z`, queries the registry with
that letter, then draws `n` in `[1, numFound]` from the same stream and
returns the symbol of doc `n - 1`, an index in `[0, numFound)`, in response
order.  Hypotheses: the rng draws inside its inclusive range, the prefix
query parses with success status, and the response carries `numFound ≥ 1`
docs. -/
theorem get_word_selects_by_seed {σ : Type} (R : RngOps σ) (reg : Char → FetchOutcome)
    (key : Nat)
    (hR : ∀ lo hi s, lo ≤ hi →
      lo ≤ (R.randomRange lo hi s).1 ∧ (R.randomRange lo hi s).1 ≤ hi)
    (json : GeneNamesResponse)
    (hreg : reg (Char.ofNat (R.randomRange 65 90 (R.seedFrom key)).1) = .parsed json)
    (hstatus : json.response_header.status = 0)
    (hfound : 1 ≤ json.response.num_found)
    (hdocs : json.response.docs.length = json.response.num_found) :
    65 ≤ (R.randomRange 65 90 (R.seedFrom key)).1 ∧
    (R.randomRange 65 90 (R.seedFrom key)).1 ≤ 90 ∧
    1 ≤ (R.randomRange 1 json.response.num_found
      (R.randomRange 65 90 (R.seedFrom key)).2).1 ∧
    (R.randomRange 1 json.response.num_found
      (R.randomRange 65 90 (R.seedFrom key)).2).1 - 1 < json.response.num_found ∧
    ∃ d, json.response.docs[(R.randomRange 1 json.response.num_found
        (R.randomRange 65 90 (R.seedFrom key)).2).1 - 1]? = some d ∧
      get_word R reg key = some (.ok d.symbol) := by
  obtain ⟨h65, h90⟩ := hR 65 90 (R.seedFrom key) (by omega)
  obtain ⟨hn1, hn2⟩ := hR 1 json.response.num_found
    (R.randomRange 65 90 (R.seedFrom key)).2 hfound
  refine ⟨h65, h90, hn1, by omega, ?_⟩
  have hidx : (R.randomRange 1 json.response.num_found
      (R.randomRange 65 90 (R.seedFrom key)).2).1 - 1 < json.response.docs.length := by
    omega
  refine ⟨json.response.docs.get ⟨_, hidx⟩, ?_, ?_⟩
  · exact List.getElem?_eq_getElem hidx
  · have hchecked1 : randRangeChecked R 65 90 (R.seedFrom key)
        = some (R.randomRange 65 90 (R.seedFrom key)) := by
      unfold randRangeChecked
      rw [if_pos (by omega)]
    have hchecked2 : randRangeChecked R 1 json.response.num_found
        (R.randomRange 65 90 (R.seedFrom key)).2
        = some (R.randomRange 1 json.response.num_found
            (R.randomRange 65 90 (R.seedFrom key)).2) := by
      unfold randRangeChecked
      rw [if_pos hfound]
    simp [get_word, hchecked1, hreg, hstatus, hchecked2,
      List.getElem?_eq_getElem hidx]

/-- A concrete in-range rng for the C2 witness: every draw returns the lower
bound and advances the state. -/
theorem get_word_selects_by_seed_witness :
    ∃ d, ([⟨"MIB2"⟩] : List GeneNamesDoc)[(0 : Nat)]? = some d ∧
      get_word constRng (fun _ => .parsed ⟨⟨0⟩, ⟨1, [⟨"MIB2"⟩]⟩⟩) 1234567890 =
        some (.ok d.symbol) :=
  (get_word_selects_by_seed constRng (fun _ => .parsed ⟨⟨0⟩, ⟨1, [⟨"MIB2"⟩]⟩⟩) 1234567890
    (fun lo hi s h => ⟨Nat.le_refl lo, h⟩)
    ⟨⟨0⟩, ⟨1, [⟨"MIB2"⟩]⟩⟩ rfl rfl (by decide) (by decide)).2.2.2.2

/-! ## Spelling generator helper lemmas -/

theorem mem_collect_fold_length (pre suf : String → Fetch2) (ml : Nat) :
    ∀ (ls : List String) (acc : Finset String),
      (∀ w ∈ acc, ml ≤ w.data.length) →
      ∀ w ∈ ls.foldl
        (fun acc letter =>
          match get_options pre suf letter with
          | .ok symbols => acc ∪ symbols.filter (fun s => ml ≤ s.data.length)
          | .error _ => acc)
        acc,
        ml ≤ w.data.length := by
  intro ls
  induction ls with
  | nil =>
    intro acc hacc w hw
    simpa using hacc w hw
  | cons l t ih =>
    intro acc hacc w hw
    rw [List.foldl_cons] at hw
    refine ih _ ?_ w hw
    intro x hx
    cases hopt : get_options pre suf l with
    | error msg =>
      rw [hopt] at hx
      exact hacc x hx
    | ok syms =>
      rw [hopt] at hx
      rcases Finset.mem_union.mp hx with hxa | hxf
      · exact hacc x hxa
      · exact (Finset.mem_filter.mp hxf).2

theorem mem_collectAllSymbols (pre suf : String → Fetch2) (ls : List String) (ml : Nat) :
    ∀ w ∈ collectAllSymbols pre suf ls ml, ml ≤ w.data.length := by
  intro w hw
  exact mem_collect_fold_length pre suf ml ls ∅ (by simp) w hw

theorem valid_letters_singletons : ∀ l ∈ VALID_LETTERS, l.data.length = 1 := by decide

theorem valid_letters_nodup : VALID_LETTERS.Nodup := by decide

theorem valid_letters_length : VALID_LETTERS.length = 27 := rfl

theorem gameIter_ok_shape {σ : Type} (S : SpellingRng σ) (A : Finset String)
    (mw nl : Nat) :
    ∀ (fuel : Nat) (rng : σ) (game : SpellingGeneGame),
      gameIter S A mw nl fuel rng = some (.ok game) →
      ∃ (rngIn : σ) (center_letter : String) (center_char : Char),
        ((S.shuffle VALID_LETTERS rngIn).1.take nl).getLast? = some center_letter ∧
        center_letter.data.head? = some center_char ∧
        game.metadata.outer_letters = ((S.shuffle VALID_LETTERS rngIn).1.take nl).dropLast ∧
        game.metadata.center_letter = center_letter ∧
        game.valid_symbols = A.filter (fun symbol => center_char ∈ symbol.data ∧
          ∀ c ∈ symbol.data, c ∈ insert center_char
            ((((S.shuffle VALID_LETTERS rngIn).1.take nl).map String.data).flatten.toFinset)) ∧
        mw ≤ game.valid_symbols.card := by
  intro fuel
  induction fuel with
  | zero =>
    intro rng game h
    simp [gameIter] at h
  | succ fuel ih =>
    intro rng game h
    simp only [gameIter] at h
    cases hlast : ((S.shuffle VALID_LETTERS rng).1.take nl).getLast? with
    | none =>
      simp [hlast] at h
    | some center =>
      simp only [hlast] at h
      cases hhead : center.data.head? with
      | none =>
        simp [hhead] at h
      | some cc =>
        simp only [hhead] at h
        by_cases hcard : mw ≤ (A.filter (fun symbol => cc ∈ symbol.data ∧
            ∀ c ∈ symbol.data, c ∈ insert cc
              ((((S.shuffle VALID_LETTERS rng).1.take nl).map String.data).flatten.toFinset))).card
        · rw [if_pos hcard] at h
          have hg : game = ⟨⟨((S.shuffle VALID_LETTERS rng).1.take nl).dropLast, center⟩,
              A.filter (fun symbol => cc ∈ symbol.data ∧
                ∀ c ∈ symbol.data, c ∈ insert cc
                  ((((S.shuffle VALID_LETTERS rng).1.take nl).map String.data).flatten.toFinset))⟩ := by
            have := Option.some_inj.mp h
            exact (Except.ok.inj this).symm
          refine ⟨rng, center, cc, hlast, hhead, ?_, ?_, ?_, ?_⟩
          · rw [hg]
          · rw [hg]
          · rw [hg]
          · rw [hg]
            exact hcard
        · rw [if_neg hcard] at h
          exact ih _ game h

theorem gameIter_some {σ : Type} (S : SpellingRng σ) (A : Finset String) (mw nl : Nat)
    (hsh : ∀ (l : List String) (s : σ), ((S.shuffle l s).1).Perm l) (hnl : 1 ≤ nl) :
    ∀ (fuel : Nat) (rng : σ),
      (∃ game, gameIter S A mw nl fuel rng = some (.ok game)) ∨
      gameIter S A mw nl fuel rng = some (.error "Failed to generate a valid game") := by
  intro fuel
  induction fuel with
  | zero =>
    intro rng
    right
    rfl
  | succ fuel ih =>
    intro rng
    have hperm := hsh VALID_LETTERS rng
    have hlen27 : (S.shuffle VALID_LETTERS rng).1.length = 27 := by
      rw [hperm.length_eq, valid_letters_length]
    have htl : ((S.shuffle VALID_LETTERS rng).1.take nl).length = min nl 27 := by
      rw [List.length_take, hlen27]
    have hne : (S.shuffle VALID_LETTERS rng).1.take nl ≠ [] := by
      intro hemp
      rw [hemp] at htl
      simp at htl
      omega
    obtain ⟨center, hlast⟩ : ∃ center,
        ((S.shuffle VALID_LETTERS rng).1.take nl).getLast? = some center := by
      cases hl : ((S.shuffle VALID_LETTERS rng).1.take nl).getLast? with
      | none => exact absurd (List.getLast?_eq_none_iff.mp hl) hne
      | some c => exact ⟨c, rfl⟩
    have hdecomp : ((S.shuffle VALID_LETTERS rng).1.take nl).dropLast ++ [center]
        = (S.shuffle VALID_LETTERS rng).1.take nl :=
      List.dropLast_append_getLast? center (Option.mem_def.mpr hlast)
    have hcmem : center ∈ (S.shuffle VALID_LETTERS rng).1.take nl := by
      rw [← hdecomp]
      exact List.mem_append_right _ (List.mem_singleton_self center)
    have hcVL : center ∈ VALID_LETTERS :=
      hperm.mem_iff.mp (List.mem_of_mem_take hcmem)
    have hdata : center.data.length = 1 := valid_letters_singletons center hcVL
    obtain ⟨cc, hcc⟩ : ∃ cc, center.data.head? = some cc := by
      cases hd : center.data with
      | nil => rw [hd] at hdata; simp at hdata
      | cons c t => exact ⟨c, rfl⟩
    simp only [gameIter, hlast, hcc]
    by_cases hcard : mw ≤ (A.filter (fun symbol => cc ∈ symbol.data ∧
        ∀ c ∈ symbol.data, c ∈ insert cc
          ((((S.shuffle VALID_LETTERS rng).1.take nl).map String.data).flatten.toFinset))).card
    · left
      exact ⟨_, by rw [if_pos hcard]⟩
    · rcases ih (S.shuffle VALID_LETTERS rng).2 with ⟨game, hg⟩ | hg
      · left
        exact ⟨game, by rw [if_neg hcard]; exact hg⟩
      · right
        rw [if_neg hcard]
        exact hg

theorem generateGame_some {σ : Type} (S : SpellingRng σ) (pre suf : String → Fetch2)
    (ml mw nl seed : Nat)
    (hsh : ∀ (l : List String) (s : σ), ((S.shuffle l s).1).Perm l) (hnl : 1 ≤ nl) :
    (∃ game, generateGame S pre suf ml mw nl seed = some (.ok game)) ∨
    generateGame S pre suf ml mw nl seed
      = some (.error "Failed to generate a valid game") := by
  unfold generateGame
  exact gameIter_some S _ mw nl hsh hnl MAX_ITERS _

theorem generateGame_ok_shape {σ : Type} (S : SpellingRng σ) (pre suf : String → Fetch2)
    (ml mw nl seed : Nat) (game : SpellingGeneGame)
    (h : generateGame S pre suf ml mw nl seed = some (.ok game)) :
    ∃ (rngIn : σ) (center_letter : String) (center_char : Char),
      ((S.shuffle VALID_LETTERS rngIn).1.take nl).getLast? = some center_letter ∧
      center_letter.data.head? = some center_char ∧
      game.metadata.outer_letters = ((S.shuffle VALID_LETTERS rngIn).1.take nl).dropLast ∧
      game.metadata.center_letter = center_letter ∧
      game.valid_symbols = (collectAllSymbols pre suf
          ((S.shuffle VALID_LETTERS (S.seedFrom seed)).1.take (nl + 5)) ml).filter
        (fun symbol => center_char ∈ symbol.data ∧
          ∀ c ∈ symbol.data, c ∈ insert center_char
            ((((S.shuffle VALID_LETTERS rngIn).1.take nl).map String.data).flatten.toFinset)) ∧
      mw ≤ game.valid_symbols.card := by
  unfold generateGame at h
  exact gameIter_ok_shape S _ mw nl MAX_ITERS _ game h

/-! ## Claim C5 -/

/-- **C5 (amended: requires `numLetters ≤ 27`).** Every successfully generated
spelling puzzle with `numLetters ≤ 27` satisfies: outer-letter count
`= numLetters − 1`; the center letter is a single character, not among the
outer letters, and all chosen letters are distinct; every valid symbol has
length ≥ `minLength`, contains the center character and uses only the chosen
letters; and at least `minWords` valid symbols exist.  (For `numLetters > 27`
the 27-symbol alphabet is truncated, so the outer count caps at 26 — see the
counterexample.) -/
theorem generated_puzzle_invariants {σ : Type} (S : SpellingRng σ)
    (pre suf : String → Fetch2) (ml mw nl seed : Nat) (game : SpellingGeneGame)
    (hsh : ∀ (l : List String) (s : σ), ((S.shuffle l s).1).Perm l)
    (hnl : nl ≤ 27)
    (h : generateGame S pre suf ml mw nl seed = some (.ok game)) :
    game.metadata.outer_letters.length = nl - 1 ∧
    game.metadata.center_letter ∉ game.metadata.outer_letters ∧
    (game.metadata.center_letter :: game.metadata.outer_letters).Nodup ∧
    (∃ cc, game.metadata.center_letter.data = [cc] ∧
      ∀ w ∈ game.valid_symbols, ml ≤ w.data.length ∧ cc ∈ w.data ∧
        ∀ c ∈ w.data,
          c ∈ (game.metadata.outer_letters.map String.data).flatten ∨ c = cc) ∧
    mw ≤ game.valid_symbols.card := by
  obtain ⟨rngIn, center, cc, hlast, hhead, houter, hcenter, hvalid, hcard⟩ :=
    generateGame_ok_shape S pre suf ml mw nl seed game h
  have hperm : ((S.shuffle VALID_LETTERS rngIn).1).Perm VALID_LETTERS :=
    hsh VALID_LETTERS rngIn
  have hlen27 : (S.shuffle VALID_LETTERS rngIn).1.length = 27 := by
    rw [hperm.length_eq, valid_letters_length]
  have hnodupL : (S.shuffle VALID_LETTERS rngIn).1.Nodup :=
    (hperm.nodup_iff).mpr valid_letters_nodup
  have hTlen : ((S.shuffle VALID_LETTERS rngIn).1.take nl).length = nl := by
    rw [List.length_take, hlen27]
    omega
  have hTnodup : ((S.shuffle VALID_LETTERS rngIn).1.take nl).Nodup :=
    hnodupL.sublist (List.take_sublist _ _)
  have hdecomp : (((S.shuffle VALID_LETTERS rngIn).1.take nl).dropLast ++ [center])
      = (S.shuffle VALID_LETTERS rngIn).1.take nl :=
    List.dropLast_append_getLast? center (Option.mem_def.mpr hlast)
  have houtlen : game.metadata.outer_letters.length = nl - 1 := by
    rw [houter, List.length_dropLast, hTlen]
  have hnodup2 : ((((S.shuffle VALID_LETTERS rngIn).1.take nl).dropLast)
      ++ [center]).Nodup := by
    rw [hdecomp]
    exact hTnodup
  have hnodup3 : (center :: ((S.shuffle VALID_LETTERS rngIn).1.take nl).dropLast).Nodup :=
    ((List.perm_append_singleton center _).nodup_iff).mp hnodup2
  have hcnotin : center ∉ ((S.shuffle VALID_LETTERS rngIn).1.take nl).dropLast :=
    (List.nodup_cons.mp hnodup3).1
  have hcmem : center ∈ (S.shuffle VALID_LETTERS rngIn).1.take nl := by
    rw [← hdecomp]
    exact List.mem_append_right _ (List.mem_singleton_self center)
  have hcVL : center ∈ VALID_LETTERS := hperm.mem_iff.mp (List.mem_of_mem_take hcmem)
  have hdata1 : center.data.length = 1 := valid_letters_singletons center hcVL
  have hcdata : center.data = [cc] := by
    cases hd : center.data with
    | nil =>
      rw [hd] at hdata1
      simp at hdata1
    | cons c t =>
      have hc : c = cc := by
        rw [hd] at hhead
        simpa using hhead
      have ht : t = [] := by
        rw [hd] at hdata1
        simpa using hdata1
      rw [hc, ht]
  refine ⟨houtlen, ?_, ?_, ⟨cc, ?_, ?_⟩, hcard⟩
  · rw [houter, hcenter]
    exact hcnotin
  · rw [houter, hcenter]
    exact hnodup3
  · rw [hcenter]
    exact hcdata
  · intro w hw
    rw [hvalid] at hw
    have hmemA := (Finset.mem_filter.mp hw).1
    have hpred := (Finset.mem_filter.mp hw).2
    refine ⟨mem_collectAllSymbols pre suf _ ml w hmemA, hpred.1, ?_⟩
    intro c hc
    rcases Finset.mem_insert.mp (hpred.2 c hc) with hceq | hcmemF
    · right
      exact hceq
    · have hcl : c ∈ (((S.shuffle VALID_LETTERS rngIn).1.take nl).map String.data).flatten :=
        List.mem_toFinset.mp hcmemF
      rw [← hdecomp, List.map_append, List.flatten_append] at hcl
      rcases List.mem_append.mp hcl with hcl1 | hcl2
      · left
        rw [houter]
        exact hcl1
      · right
        have hcd : c ∈ center.data := by simpa using hcl2
        rw [hcdata] at hcd
        simpa using hcd

/-- A concrete generation success with `num_letters = 1` for the C5 witness:
all registry calls fail, so the pool is empty, and `min_words = 0` accepts the
first candidate set. -/
def game1 : SpellingGeneGame := ⟨⟨[], "A"⟩, ∅⟩

/-- Witness for (amended) C5 at `(minLength, minWords, numLetters) = (0, 0, 1)`. -/
theorem generated_puzzle_invariants_witness :
    game1.metadata.outer_letters.length = 1 - 1 ∧
    game1.metadata.center_letter ∉ game1.metadata.outer_letters ∧
    (game1.metadata.center_letter :: game1.metadata.outer_letters).Nodup ∧
    (∃ cc, game1.metadata.center_letter.data = [cc] ∧
      ∀ w ∈ game1.valid_symbols, 0 ≤ w.data.length ∧ cc ∈ w.data ∧
        ∀ c ∈ w.data,
          c ∈ (game1.metadata.outer_letters.map String.data).flatten ∨ c = cc) ∧
    0 ≤ game1.valid_symbols.card :=
  generated_puzzle_invariants idRng errReg errReg 0 0 1 0 game1
    (fun l _ => List.Perm.refl l) (by decide) (by decide)

/-- The puzzle the code actually produces at `num_letters = 28`: the alphabet
truncation caps the letter list at all 27 symbols, so 26 outer letters. -/
def game28 : SpellingGeneGame :=
  ⟨⟨["A", "B", "C", "D", "E", "F", "G", "H", "I", "J", "K", "L", "M",
     "N", "O", "P", "Q", "R", "S", "T", "U", "V", "W", "X", "Y", "Z"], "-"⟩, ∅⟩

/-- Counterexample to C5 as stated: with `numLetters = 28` (a legal `u8`
parameter) generation succeeds, yet the outer-letter count is `26 ≠ 28 − 1`. -/
theorem generated_puzzle_invariants_cex :
    generateGame idRng errReg errReg 0 0 28 0 = some (.ok game28) ∧
    ¬ game28.metadata.outer_letters.length = 28 - 1 := by
  constructor
  · decide
  · decide

/-! ## Claim C6 -/

/-- **C6.** Generation is a bounded retry search: the loop always terminates
with either a success or the terminal `GenerationFailed` error
(`"Failed to generate a valid game"`), never an unbounded loop; and once the
iteration budget is exhausted (fuel `0`), the very next step is that terminal
error for every state and symbol pool. -/
theorem generation_bounded_retries {σ : Type} (S : SpellingRng σ)
    (pre suf : String → Fetch2) (ml mw nl seed : Nat)
    (hsh : ∀ (l : List String) (s : σ), ((S.shuffle l s).1).Perm l)
    (hnl : 1 ≤ nl) :
    ((∃ game, generateGame S pre suf ml mw nl seed = some (.ok game)) ∨
      generateGame S pre suf ml mw nl seed
        = some (.error "Failed to generate a valid game")) ∧
    (∀ (A : Finset String) (rng : σ),
      gameIter S A mw nl 0 rng = some (.error "Failed to generate a valid game")) :=
  ⟨generateGame_some S pre suf ml mw nl seed hsh hnl, fun _ _ => rfl⟩

/-- Witness for C6 with the identity shuffle and an all-failing registry. -/
theorem generation_bounded_retries_witness :
    ((∃ game, generateGame idRng errReg errReg 0 10 1 0 = some (.ok game)) ∨
      generateGame idRng errReg errReg 0 10 1 0
        = some (.error "Failed to generate a valid game")) ∧
    (∀ (A : Finset String) (rng : Unit),
      gameIter idRng A 10 1 0 rng = some (.error "Failed to generate a valid game")) :=
  generation_bounded_retries idRng errReg errReg 0 10 1 0
    (fun l _ => List.Perm.refl l) (by decide)

/-! ## Claim C7 -/

/-- **C7.** The membership check resolves the puzzle for the parameter tuple
and returns exactly whether the word is in `validSymbols`; whenever generation
fails with an error — in particular after the retry cap — it returns `false`
rather than propagating the error. -/
theorem check_guess_membership {σ : Type} (S : SpellingRng σ)
    (pre suf : String → Fetch2) (seed ml mw nl : Nat) (gw : String)
    (hsh : ∀ (l : List String) (s : σ), ((S.shuffle l s).1).Perm l)
    (hnl : 1 ≤ nl) :
    ∃ b, check_guess S pre suf seed ml mw nl gw = some b ∧
      (b = true ↔ ∃ game, generateGame S pre suf ml mw nl seed = some (.ok game) ∧
        gw ∈ game.valid_symbols) ∧
      (∀ msg, generateGame S pre suf ml mw nl seed = some (.error msg) → b = false) := by
  rcases generateGame_some S pre suf ml mw nl seed hsh hnl with ⟨game, hg⟩ | hg
  · refine ⟨decide (gw ∈ game.valid_symbols), ?_, ?_, ?_⟩
    · unfold check_guess
      rw [hg]
    · constructor
      · intro hb
        exact ⟨game, hg, by simpa using hb⟩
      · rintro ⟨game', hg', hmem⟩
        rw [hg] at hg'
        have : game = game' := Except.ok.inj (Option.some_inj.mp hg')
        rw [this]
        simpa using hmem
    · intro msg hmsg
      rw [hg] at hmsg
      simp at hmsg
  · refine ⟨false, ?_, ?_, fun _ _ => rfl⟩
    · unfold check_guess
      rw [hg]
    · constructor
      · intro hb
        cases hb
      · rintro ⟨game', hg', _⟩
        rw [hg] at hg'
        simp at hg'

/-- Witness for C7: empty pool, trivially successful generation, word absent. -/
theorem check_guess_membership_witness :
    ∃ b, check_guess idRng errReg errReg 0 0 0 1 "MIB2" = some b ∧
      (b = true ↔ ∃ game, generateGame idRng errReg errReg 0 0 1 0 = some (.ok game) ∧
        "MIB2" ∈ game.valid_symbols) ∧
      (∀ msg, generateGame idRng errReg errReg 0 0 1 0 = some (.error msg) → b = false) :=
  check_guess_membership idRng errReg errReg 0 0 0 1 "MIB2"
    (fun l _ => List.Perm.refl l) (by decide)

/-! ## Claim C10 -/

theorem gameIter_zero_letters {σ : Type} (S : SpellingRng σ) (A : Finset String)
    (mw : Nat) (fuel : Nat) (rng : σ) :
    gameIter S A mw 0 (fuel + 1) rng = none := by
  simp [gameIter]

/-- **C10.** With a permutation shuffle and `num_letters ≥ 1`, the truncated
letter list is non-empty, so the `letters.pop().unwrap()` extracting the
center letter cannot fail and generation returns a value; with
`num_letters = 0` the very first iteration panics (`none`), so
`num_letters ≥ 1` is a genuine precondition of the interface. -/
theorem center_pop_requires_letters {σ : Type} (S : SpellingRng σ)
    (pre suf : String → Fetch2) (ml mw nl seed : Nat)
    (hsh : ∀ (l : List String) (s : σ), ((S.shuffle l s).1).Perm l) :
    (1 ≤ nl → ∃ r, generateGame S pre suf ml mw nl seed = some r) ∧
    (nl = 0 → generateGame S pre suf ml mw nl seed = none) := by
  constructor
  · intro hnl
    rcases generateGame_some S pre suf ml mw nl seed hsh hnl with ⟨game, hg⟩ | hg
    · exact ⟨.ok game, hg⟩
    · exact ⟨.error "Failed to generate a valid game", hg⟩
  · intro h0
    subst h0
    unfold generateGame
    exact gameIter_zero_letters S _ mw 9999 _

/-- Witness for C10 at `num_letters = 1`. -/
theorem center_pop_requires_letters_witness :
    ∃ r, generateGame idRng errReg errReg 3 7 1 42 = some r :=
  (center_pop_requires_letters idRng errReg errReg 3 7 1 42
    (fun l _ => List.Perm.refl l)).1 (by decide)

/-! ## Claim C4 -/

/-- **C4.** In `Hard` mode, for a length-matching guess the validator issues
the exact-match query for the guess string and accepts (`.ok none`) iff the
response parses with success status, `numFound ≥ 1`, and some returned symbol
equals the guess; otherwise it is `NotInCorpus`.  A transport or JSON-parse
error propagates as a `String` error that the `guess` endpoint converts to
`Invalid (InternalError msg)`. -/
theorem hard_mode_dictionary_check (secret : String) (reg : String → FetchOutcome)
    (gu : Guess) (hmode : gu.mode = GameMode.Hard)
    (hlen : gu.word.length = secret.length) :
    (∀ json, reg (String.mk gu.word) = .parsed json →
      ((validGuessCached (.ok secret) reg gu = .ok none) ↔
        (json.response_header.status = 0 ∧ 1 ≤ json.response.num_found ∧
          ∃ d ∈ json.response.docs, d.symbol = String.mk gu.word)) ∧
      (¬(json.response_header.status = 0 ∧ 1 ≤ json.response.num_found ∧
          ∃ d ∈ json.response.docs, d.symbol = String.mk gu.word) →
        validGuessCached (.ok secret) reg gu = .ok (some .NotInCorpus))) ∧
    (∀ msg, reg (String.mk gu.word) = .transportError msg →
      validGuessCached (.ok secret) reg gu = .error msg ∧
      guessEndpoint (.ok secret) reg gu = some (.Invalid (.InternalError msg))) ∧
    (∀ msg, reg (String.mk gu.word) = .parseError msg →
      validGuessCached (.ok secret) reg gu = .error msg ∧
      guessEndpoint (.ok secret) reg gu = some (.Invalid (.InternalError msg))) := by
  have hmodeN : ¬(gu.mode = GameMode.Normal) := by
    rw [hmode]
    intro hc
    cases hc
  have hstep : validGuessCached (.ok secret) reg gu =
      match reg (String.mk gu.word) with
      | .transportError msg => .error msg
      | .httpFailure => .error "Unable to query genenames.org"
      | .parseError msg => .error msg
      | .parsed json =>
        if json.response_header.status = 0 ∧ 1 ≤ json.response.num_found ∧
            ∃ d ∈ json.response.docs, d.symbol = String.mk gu.word then
          .ok none
        else
          .ok (some .NotInCorpus) := by
    unfold validGuessCached
    rw [show numLettersCached (.ok secret) = (secret.length : Int) from rfl]
    rw [if_neg (by omega)]
    rw [if_neg (by omega)]
    rw [if_neg hmodeN]
  refine ⟨fun json hreg => ?_, fun msg hreg => ?_, fun msg hreg => ?_⟩
  · rw [hstep]
    simp only [hreg]
    constructor
    · constructor
      · intro hok
        by_cases hcond : json.response_header.status = 0 ∧ 1 ≤ json.response.num_found ∧
            ∃ d ∈ json.response.docs, d.symbol = String.mk gu.word
        · exact hcond
        · rw [if_neg hcond] at hok
          simp at hok
      · intro hcond
        rw [if_pos hcond]
    · intro hncond
      rw [if_neg hncond]
  · have hverr : validGuessCached (.ok secret) reg gu = .error msg := by
      rw [hstep]
      simp only [hreg]
    refine ⟨hverr, ?_⟩
    unfold guessEndpoint
    rw [hverr]
  · have hverr : validGuessCached (.ok secret) reg gu = .error msg := by
      rw [hstep]
      simp only [hreg]
    refine ⟨hverr, ?_⟩
    unfold guessEndpoint
    rw [hverr]

/-- Witness for C4 on the transport-error branch. -/
theorem hard_mode_dictionary_check_witness :
    validGuessCached (.ok (String.mk ['A'])) (fun _ => .transportError "boom")
      ⟨['B'], 0, GameMode.Hard⟩ = .error "boom" ∧
    guessEndpoint (.ok (String.mk ['A'])) (fun _ => .transportError "boom")
      ⟨['B'], 0, GameMode.Hard⟩ = some (.Invalid (.InternalError "boom")) :=
  (hard_mode_dictionary_check (String.mk ['A']) (fun _ => .transportError "boom")
    ⟨['B'], 0, GameMode.Hard⟩ rfl (by decide)).2.1 "boom" rfl
